import Mathlib

/-
Verification of the ranking pipeline in `backend/src/youtube_scrape.py`.

The embedding below translates the pipeline's pure core into Lean:

* `fuzzySimilarity`   — `fuzzy_similarity` (lines 496-530).  Strings are
  Lean `String`s; tokenisation `re.findall(r"\w+", s)` becomes `words`
  (maximal runs of alphanumeric/underscore characters); the library call
  `fuzz.ratio` is modelled from the spec's words ("Levenshtein-based
  similarity scaled to 0-100") as `fuzzRatio`, since the fuzzywuzzy
  library is outside the repository.  Python's `ZeroDivisionError` on
  `sum(ratios)/len(ratios)` with an empty `ratios` list is made explicit:
  the function returns `Option ℚ`, `none` marking the raised exception.
* `combine`           — `transform_data` (lines 446-493): the pandas
  inner merge on `Channel_Id` (`innerJoin`), the four
  `rank(method="dense", ascending=False)` columns (`denseRankDesc`:
  pandas' dense rank of `v` is one plus the number of distinct column
  values strictly greater than `v`), the `Average_Rank` column and the
  ascending `sort_values` (modelled by `mergeSort`; the claimed property
  is sortedness, which is insensitive to the library's choice of sort).
  The `Videos`/`Subscribers` columns hold the strings the YouTube API
  returns (`transform_channel_data` passes them through as-is), so they
  are ranked with the lexicographic order on `String`, exactly as pandas
  ranks an object column.
* `transformCommentThreadData` — `transform_comment_thread_data`
  (lines 344-383).  The VADER scorer is an external lexicon resource and
  enters as a function parameter `senti`.  The pandas `groupby` orders
  output rows by key; no claim concerns row order, and the embedding
  keeps first-occurrence order of channel ids instead.
* `transformChannelData` — `transform_channel_data` (lines 386-443);
  every `.get(..., default)` access becomes an `Option.getD`.
* `searchLoop` / `extractSearchData` — the paging loop of
  `extract_search_data` (lines 159-200); the upstream API is a function
  `Nat → Option SearchResponse` giving the outcome of the n-th issued
  request (`none` = `HttpError`).  Python truthiness of the continuation
  token (`if page_token:`) is `tokenTruthy`.
* `groupVideos` / `commentFetchCalls` — the grouping and per-channel
  sampling of `extract_comment_thread_data` (lines 229-251);
  `random.sample(video_list, 2)` enters as a sampler parameter.
* `storeResults` / `transformData` — the process-wide `KV_STORE`
  (lines 34-36, 550-562) as an explicit `String → Option DFVal` state,
  and `transform_data`'s two reads of it.
* `doQueryRows`       — the `.head(MAX_RESULTS)` truncation of
  `do_query` (lines 114-139).
-/

/-! ### Fuzzy text matcher (`fuzzy_similarity`) -/

/-- A word character in the sense of the regex `\w`. -/
def isWordChar (c : Char) : Bool := c.isAlphanum || c == '_'

/-- `re.findall(r"\w+", s)`: the maximal nonempty runs of word characters. -/
def words (s : List Char) : List (List Char) :=
  (s.splitOnP (fun c => !isWordChar c)).filter (fun w => !w.isEmpty)

/-- `str.lower()` applied characterwise. -/
def lowerChars (s : List Char) : List Char := s.map Char.toLower

/-- Levenshtein edit distance between two character lists. -/
def lev : List Char → List Char → Nat
  | [], ys => ys.length
  | x :: xs, [] => (x :: xs).length
  | x :: xs, y :: ys =>
    if x = y then lev xs ys
    else 1 + min (lev xs (y :: ys)) (min (lev (x :: xs) ys) (lev xs ys))

/-- Modelled from the spec: `fuzz.ratio` of the fuzzywuzzy library (not in
the repository) is a "normalized edit-distance ratio ... Levenshtein-based
similarity scaled to 0-100". -/
def fuzzRatio (a b : List Char) : ℚ :=
  if a.length + b.length = 0 then 100
  else (100 * (((a.length : ℚ) + b.length) - lev a b)) / ((a.length : ℚ) + b.length)

/-- The scanning loop of `fuzzy_similarity` (lines 519-528): offset `i`
ranges over the text; at each offset the suffix is tokenised, the loop
breaks when fewer tokens than query tokens remain, otherwise the mean of
the per-token ratios is taken and the running maximum updated.  The mean
`sum(ratios)/len(ratios)` raises `ZeroDivisionError` when `ratios` is
empty, which the embedding returns as `none`.  The loop is driven by the
structurally decreasing `fuel`, entered at `s2.length` with `i = 0`, so
`fuel = s2.length - i` throughout and the fuel-exhausted exit coincides
with the end of `range(len(str2))`. -/
def fuzzyLoop (pat : List (List Char)) (s2 : List Char) :
    Nat → Nat → ℚ → Option ℚ
  | 0, _, best => some best
  | fuel + 1, i, best =>
    if i < s2.length then
      let tw := words (s2.drop i)
      if tw.length < pat.length then some best
      else
        let ratios := (pat.zip tw).map (fun p => fuzzRatio p.1 p.2)
        if ratios.length = 0 then none
        else
          let avg := ratios.sum / (ratios.length : ℚ)
          fuzzyLoop pat s2 fuel (i + 1) (if best < avg then avg else best)
    else some best

/-- `fuzzy_similarity(str1, str2)` (lines 496-530). -/
def fuzzySimilarity (str1 str2 : String) : Option ℚ :=
  fuzzyLoop (words (lowerChars str1.data)) (lowerChars str2.data)
    (lowerChars str2.data).length 0 0

/-! ### Rank combiner (`transform_data`) -/

/-- One row of the `channel_data` dataframe built by
`transform_channel_data`; `videos` and `subscribers` carry the raw
strings of the API's `statistics` payload. -/
structure ChannelRow where
  channelId : String
  title : String
  url : String
  description : String
  videos : String
  subscribers : String
  similarity : ℚ
deriving DecidableEq

/-- One row of the `comment_thread_data` dataframe built by
`transform_comment_thread_data`. -/
structure SentimentRow where
  channelId : String
  score : ℚ
deriving DecidableEq

/-- One row of the combined dataframe returned by `transform_data`. -/
structure RankedRow where
  channelId : String
  title : String
  url : String
  description : String
  videos : String
  subscribers : String
  similarity : ℚ
  score : ℚ
  videosRank : ℕ
  subscribersRank : ℕ
  scoreRank : ℕ
  similarityRank : ℕ
  averageRank : ℚ
deriving DecidableEq

/-- pandas `Series.rank(method="dense", ascending=False)`: the dense rank
of `v` in column `vs` is one plus the number of distinct column values
strictly greater than `v`. -/
def denseRankDesc {α : Type} [LinearOrder α] [DecidableEq α]
    (vs : List α) (v : α) : ℕ :=
  (vs.toFinset.filter (fun u => v < u)).card + 1

/-- pandas `pd.merge(channel_df, comment_thread_df, on="Channel_Id")`
(inner join; the spec declares the join undefined for duplicate keys, and
the channel table is built from a deduplicated id set). -/
def innerJoin (cs : List ChannelRow) (ss : List SentimentRow) :
    List (ChannelRow × ℚ) :=
  cs.filterMap (fun c =>
    (ss.find? (fun s => s.channelId == c.channelId)).map (fun s => (c, s.score)))

/-- `transform_data` (lines 446-493): inner-join the two tables, add the
four dense-rank columns (computed descending on the joined table), add
`Average_Rank` as their mean, and sort ascending by `Average_Rank`. -/
def combine (cs : List ChannelRow) (ss : List SentimentRow) : List RankedRow :=
  let joined := innerJoin cs ss
  let vidsCol := joined.map (fun p => p.1.videos)
  let subsCol := joined.map (fun p => p.1.subscribers)
  let scoreCol := joined.map (fun p => p.2)
  let simCol := joined.map (fun p => p.1.similarity)
  let ranked := joined.map (fun p =>
    let vr := denseRankDesc vidsCol p.1.videos
    let sr := denseRankDesc subsCol p.1.subscribers
    let scr := denseRankDesc scoreCol p.2
    let sir := denseRankDesc simCol p.1.similarity
    { channelId := p.1.channelId
      title := p.1.title
      url := p.1.url
      description := p.1.description
      videos := p.1.videos
      subscribers := p.1.subscribers
      similarity := p.1.similarity
      score := p.2
      videosRank := vr
      subscribersRank := sr
      scoreRank := scr
      similarityRank := sir
      averageRank := ((vr : ℚ) + (sr : ℚ) + (scr : ℚ) + (sir : ℚ)) / 4 })
  ranked.mergeSort (fun a b => decide (a.averageRank ≤ b.averageRank))

/-! ### Comment aggregator (`transform_comment_thread_data`) -/

/-- One comment thread item of a `commentThreads.list` response: the
owning channel (from `snippet.channelId`), the top-level comment text and
the reply texts.  Absent fields are `none`; the code substitutes an empty
string (`.get(..., "")`) or an empty collection at the point of access. -/
structure ThreadItem where
  channelId : Option String
  topLevelText : Option String
  replyTexts : List (Option String)
deriving DecidableEq

/-- The `(channelId, score)` samples one thread item contributes
(lines 365-379): one for the top-level comment and one per reply, all
attributed to the thread's channel. -/
def threadSamples (senti : String → ℚ) (it : ThreadItem) : List (String × ℚ) :=
  (it.channelId.getD "", senti (it.topLevelText.getD "")) ::
    it.replyTexts.map (fun r => (it.channelId.getD "", senti (r.getD "")))

/-- All `(channelId, score)` samples collected from the extractor output,
a list of responses each carrying a list of thread items. -/
def commentSamples (senti : String → ℚ) (responses : List (List ThreadItem)) :
    List (String × ℚ) :=
  responses.flatMap (fun resp => resp.flatMap (threadSamples senti))

/-- `transform_comment_thread_data` (lines 344-383): group the samples by
channel id and take the arithmetic mean of each group. -/
def transformCommentThreadData (senti : String → ℚ)
    (responses : List (List ThreadItem)) : List (String × ℚ) :=
  let samples := commentSamples senti responses
  let ids := (samples.map (fun p => p.1)).dedup
  ids.map (fun c =>
    let grp := (samples.filter (fun p => p.1 == c)).map (fun p => p.2)
    (c, grp.sum / (grp.length : ℚ)))

/-! ### Channel transformer (`transform_channel_data`) -/

/-- One channel item of a `channels.list` response.  Absent optional
fields are `none`; the code substitutes `""` at the point of access. -/
structure ChannelItem where
  id : Option String
  customUrl : Option String
  title : Option String
  description : Option String
  videoCount : Option String
  subscriberCount : Option String
deriving DecidableEq

/-- The row `transform_channel_data` builds for one channel item
(lines 409-430); `none` when `fuzzy_similarity` raises. -/
def transformChannelItem (query : String) (it : ChannelItem) :
    Option ChannelRow :=
  (fuzzySimilarity query
      ((it.title.getD "") ++ " : " ++ (it.description.getD ""))).map
    (fun sim =>
      { channelId := it.id.getD ""
        title := it.title.getD ""
        url := "https://www.youtube.com/" ++ it.customUrl.getD ""
        description := it.description.getD ""
        videos := it.videoCount.getD ""
        subscribers := it.subscriberCount.getD ""
        similarity := sim })

/-- `transform_channel_data` (lines 386-443): one row per channel item;
`none` when any row's similarity computation raises. -/
def transformChannelData (query : String) (items : List ChannelItem) :
    Option (List ChannelRow) :=
  items.mapM (transformChannelItem query)

/-! ### Search extractor (`extract_search_data`) -/

/-- One item of a search response; `item.get("id", {}).get("videoId")`
and `item.get("snippet", {}).get("channelId")` may both be absent. -/
structure SearchItem where
  videoId : Option String
  channelId : Option String
deriving DecidableEq

/-- One page of a search response. -/
structure SearchResponse where
  items : List SearchItem
  nextPageToken : Option String
deriving DecidableEq

/-- Python truthiness of `response.get("nextPageToken")`: an absent token
and the empty string are both falsy. -/
def tokenTruthy : Option String → Bool
  | none => false
  | some t => !(t == "")

/-- The paging loop of `extract_search_data` (lines 176-193).  `up n` is
the outcome of the n-th issued request (`none` = `HttpError`); `acc` is
`response_list` and `reqs` counts issued requests.  Each iteration first
checks the page cap, then issues one request; a failure leaves the token
unset, and an unset or falsy token breaks the loop. -/
def searchLoop (up : Nat → Option SearchResponse) :
    Nat → List SearchResponse → Nat → List SearchResponse × Nat
  | 0, acc, reqs => (acc, reqs)
  | fuel + 1, acc, reqs =>
    if 5 ≤ acc.length then (acc, reqs)
    else
      match up reqs with
      | none => (acc, reqs + 1)
      | some r =>
        if tokenTruthy r.nextPageToken then
          searchLoop up fuel (acc ++ [r]) (reqs + 1)
        else (acc ++ [r], reqs + 1)

/-- `extract_search_data` (lines 159-200): the pairs
`(videoId, channelId)` of all items of all fetched pages, in order.  The
loop is entered with `fuel = 5 = MAX_PAGES` and an empty `response_list`;
the accumulator grows by one per iteration, so `fuel = 5 - acc.length`
throughout and the fuel-exhausted exit coincides with the page-cap
check `len(response_list) >= MAX_PAGES`. -/
def extractSearchData (up : Nat → Option SearchResponse) :
    List (Option String × Option String) :=
  ((searchLoop up 5 [] 0).1).flatMap
    (fun r => r.items.map (fun it => (it.videoId, it.channelId)))

/-! ### Comment extractor grouping and sampling
(`extract_comment_thread_data`) -/

/-- Appending one video to its channel's group, as inserting into the
`videos` dict does (lines 233-238): insertion order of channels is kept
and a video is appended at the end of an existing group. -/
def addVideo : List (String × List String) → String → String →
    List (String × List String)
  | [], c, v => [(c, [v])]
  | (c', vs) :: rest, c, v =>
    if c' = c then (c', vs ++ [v]) :: rest
    else (c', vs) :: addVideo rest c v

/-- The `videos` dict of `extract_comment_thread_data`: search results
grouped by channel id in discovery order. -/
def groupVideos (sd : List (String × String)) : List (String × List String) :=
  sd.foldl (fun g p => addVideo g p.2 p.1) []

/-- The videos a channel contributes to `search_data`, in order. -/
def videosOf (sd : List (String × String)) (c : String) : List String :=
  (sd.filter (fun p => p.2 == c)).map (fun p => p.1)

/-- `videos[channel_id]` lookup in the association-list rendering of the
dict (`[]` when the key is absent). -/
def entryOf (g : List (String × List String)) (c : String) : List String :=
  ((g.find? (fun e => e.1 == c)).map (fun e => e.2)).getD []

/-- The videos selected for one channel (lines 241-242): a sample of 2
when the group holds more than 2 videos, the whole group otherwise.
`random.sample(video_list, 2)` enters as the `sample` parameter. -/
def chooseVideos (sample : List String → List String) (vl : List String) :
    List String :=
  if 2 < vl.length then sample vl else vl

/-- The `commentThreads.list` fetch calls issued by
`extract_comment_thread_data` (lines 240-249), as `(channelId, videoId)`
pairs in issue order. -/
def commentFetchCalls (sample : List String → List String)
    (sd : List (String × String)) : List (String × String) :=
  (groupVideos sd).flatMap
    (fun g => (chooseVideos sample g.2).map (fun v => (g.1, v)))

/-! ### Hand-off store (`KV_STORE`, `store_results`) and entry point -/

/-- A value held by `KV_STORE`: the dataframe of one of the two
pipeline branches. -/
inductive DFVal where
  | channelDF (rows : List ChannelRow)
  | sentimentDF (rows : List SentimentRow)
deriving DecidableEq

/-- The state of the process-wide `KV_STORE` (lines 34-36). -/
def Store : Type := String → Option DFVal

/-- `store_results(key, df)` (lines 550-562): write one key, keep the
rest of the store. -/
def storeResults (key : String) (df : DFVal) (st : Store) : Store :=
  fun k => if k = key then some df else st k

/-- `transform_data`'s access to the store (lines 467-469): read the two
branch keys (a missing key or a key holding the other branch's frame is
a `KeyError`/type error, `none`), then combine.  The store itself is not
modified by the read. -/
def transformData (st : Store) : Option (List RankedRow) :=
  match st "channel_data", st "comment_thread_data" with
  | some (DFVal.channelDF cs), some (DFVal.sentimentDF ss) =>
    some (combine cs ss)
  | _, _ => none

/-- The store state after one query's two branch writes (`main`,
lines 584-597): each branch stores its transform output under its key;
the final `transform_data` read writes nothing. -/
def runQueryStore (st : Store) (cs : List ChannelRow)
    (ss : List SentimentRow) : Store :=
  storeResults "channel_data" (DFVal.channelDF cs)
    (storeResults "comment_thread_data" (DFVal.sentimentDF ss) st)

/-- The truncation `main(...).head(MAX_RESULTS)` of `do_query`
(lines 133-134), `MAX_RESULTS = 20`. -/
def doQueryRows (rows : List RankedRow) : List RankedRow :=
  rows.take 20

/-! ### Helper lemmas -/

/-- Unfolding `combine`: the sorted list is a permutation of the ranked
join, so membership facts transfer. -/
theorem combine_perm (cs : List ChannelRow) (ss : List SentimentRow) :
    (combine cs ss).Perm
      ((innerJoin cs ss).map (fun p =>
        let vr := denseRankDesc ((innerJoin cs ss).map (fun q => q.1.videos)) p.1.videos
        let sr := denseRankDesc ((innerJoin cs ss).map (fun q => q.1.subscribers)) p.1.subscribers
        let scr := denseRankDesc ((innerJoin cs ss).map (fun q => q.2)) p.2
        let sir := denseRankDesc ((innerJoin cs ss).map (fun q => q.1.similarity)) p.1.similarity
        { channelId := p.1.channelId
          title := p.1.title
          url := p.1.url
          description := p.1.description
          videos := p.1.videos
          subscribers := p.1.subscribers
          similarity := p.1.similarity
          score := p.2
          videosRank := vr
          subscribersRank := sr
          scoreRank := scr
          similarityRank := sir
          averageRank := ((vr : ℚ) + (sr : ℚ) + (scr : ℚ) + (sir : ℚ)) / 4 })) := by
  unfold combine
  exact List.mergeSort_perm _ _

theorem mem_innerJoin {cs : List ChannelRow} {ss : List SentimentRow}
    {p : ChannelRow × ℚ} :
    p ∈ innerJoin cs ss ↔
      p.1 ∈ cs ∧ ∃ s ∈ ss,
        (ss.find? (fun s => s.channelId == p.1.channelId)) = some s ∧
        s.score = p.2 := by
  unfold innerJoin
  rw [List.mem_filterMap]
  constructor
  · rintro ⟨c, hc, h⟩
    rw [Option.map_eq_some'] at h
    obtain ⟨s, hfind, hps⟩ := h
    subst hps
    refine ⟨hc, s, ?_, hfind, rfl⟩
    exact List.mem_of_find?_eq_some hfind
  · rintro ⟨h1, s, _hs, hfind, hscore⟩
    refine ⟨p.1, h1, ?_⟩
    rw [hfind]
    simp [Option.map_some', hscore]

/-! ### C2 -/

/-- C2: for every pair of input tables, a channelId appears in
`combine`'s output exactly when it is present in both the channel table
and the sentiment table (inner join); a channelId present in only one
table is silently excluded, never an error. -/
theorem combine_inner_join_filter (cs : List ChannelRow)
    (ss : List SentimentRow) (c : String) :
    c ∈ (combine cs ss).map (fun r => r.channelId) ↔
      (c ∈ cs.map (fun r => r.channelId) ∧ c ∈ ss.map (fun s => s.channelId)) := by
  rw [List.Perm.mem_iff (List.Perm.map _ (combine_perm cs ss))]
  rw [List.map_map, List.mem_map]
  constructor
  · rintro ⟨p, hp, hc⟩
    rw [mem_innerJoin] at hp
    obtain ⟨h1, s, hs, hfind, _⟩ := hp
    have hid : s.channelId = p.1.channelId := by
      have := List.find?_some hfind
      simpa using this
    constructor
    · exact List.mem_map.mpr ⟨p.1, h1, hc⟩
    · refine List.mem_map.mpr ⟨s, hs, ?_⟩
      simpa [hid] using hc
  · rintro ⟨h1, h2⟩
    obtain ⟨crow, hcrow, hcid⟩ := List.mem_map.mp h1
    obtain ⟨srow, hsrow, hsid⟩ := List.mem_map.mp h2
    have hfind : (ss.find? (fun s => s.channelId == crow.channelId)).isSome := by
      rw [List.find?_isSome]
      exact ⟨srow, hsrow, by simp [hsid, hcid]⟩
    obtain ⟨s, hs⟩ := Option.isSome_iff_exists.mp hfind
    refine ⟨(crow, s.score), ?_, hcid⟩
    rw [mem_innerJoin]
    exact ⟨hcrow, s, List.mem_of_find?_eq_some hs, hs, rfl⟩

/-! ### C10 -/

/-- C10: `do_query` returns at most `MAX_RESULTS = 20` rows, namely a
prefix (the first 20 rows, in order) of the full ranked sequence
produced by the pipeline's combiner. -/
theorem doQuery_truncates (cs : List ChannelRow) (ss : List SentimentRow) :
    (doQueryRows (combine cs ss)).length ≤ 20 ∧
      doQueryRows (combine cs ss) <+: combine cs ss := by
  constructor
  · simp [doQueryRows]
  · exact ⟨(combine cs ss).drop 20, List.take_append_drop 20 (combine cs ss)⟩

/-! ### C9 -/

/-- C9: writing a branch result under one key leaves every other key of
the hand-off store unchanged; the combiner reads the two branch keys
without removing or modifying them, so a value written for one query is
still present when a later query begins, and is only replaced when that
branch writes its key again. -/
theorem kv_store_frame (st : Store) (k k' q' : String) (v : DFVal)
    (cs cs2 : List ChannelRow) (ss ss2 : List SentimentRow)
    (h1 : k' ≠ k) (h2 : q' ≠ "channel_data") (h3 : q' ≠ "comment_thread_data") :
    (storeResults k v st) k' = st k' ∧
    (storeResults k v st) k = some v ∧
    runQueryStore st cs ss q' = st q' ∧
    runQueryStore st cs ss "channel_data" = some (DFVal.channelDF cs) ∧
    runQueryStore st cs ss "comment_thread_data" = some (DFVal.sentimentDF ss) ∧
    transformData (runQueryStore st cs ss) = some (combine cs ss) ∧
    runQueryStore (runQueryStore st cs ss) cs2 ss2 q' = st q' ∧
    runQueryStore (runQueryStore st cs ss) cs2 ss2 "channel_data" =
      some (DFVal.channelDF cs2) := by
  refine ⟨?_, ?_, ?_, ?_, ?_, ?_, ?_, ?_⟩ <;>
    simp [storeResults, runQueryStore, transformData, h1, h2, h3]

/-- Witness for C9 at a concrete store, keys and frames. -/
theorem kv_store_frame_witness :
    ((storeResults "x" (DFVal.channelDF []) (fun _ => none)) "y" =
        (fun _ => (none : Option DFVal)) "y" ∧
      (storeResults "x" (DFVal.channelDF []) (fun _ => none)) "x" =
        some (DFVal.channelDF []) ∧
      runQueryStore (fun _ => none) [] [] "z" = (fun _ => (none : Option DFVal)) "z" ∧
      runQueryStore (fun _ => none) [] [] "channel_data" = some (DFVal.channelDF []) ∧
      runQueryStore (fun _ => none) [] [] "comment_thread_data" =
        some (DFVal.sentimentDF []) ∧
      transformData (runQueryStore (fun _ => none) [] []) = some (combine [] []) ∧
      runQueryStore (runQueryStore (fun _ => none) [] []) [] [] "z" =
        (fun _ => (none : Option DFVal)) "z" ∧
      runQueryStore (runQueryStore (fun _ => none) [] []) [] [] "channel_data" =
        some (DFVal.channelDF [])) :=
  kv_store_frame (fun _ => none) "x" "y" "z" (DFVal.channelDF []) [] [] [] []
    (by decide) (by decide) (by decide)

/-! ### Bounds for the fuzzy matcher -/

theorem lev_le (a b : List Char) : lev a b ≤ a.length + b.length := by
  induction a generalizing b with
  | nil => simp [lev]
  | cons x xs ih =>
    cases b with
    | nil => simp [lev]
    | cons y ys =>
      by_cases hxy : x = y
      · have h := ih ys
        simp only [lev, if_pos hxy, List.length_cons]
        omega
      · have h := ih ys
        have hmin : min (lev xs (y :: ys)) (min (lev (x :: xs) ys) (lev xs ys)) ≤
            lev xs ys :=
          le_trans (Nat.min_le_right _ _) (Nat.min_le_right _ _)
        simp only [lev, if_neg hxy, List.length_cons]
        omega

theorem fuzzRatio_nonneg (a b : List Char) : 0 ≤ fuzzRatio a b := by
  unfold fuzzRatio
  split
  · norm_num
  · rename_i h
    have hpos : (0 : ℚ) < (a.length : ℚ) + b.length := by
      have : 0 < a.length + b.length := Nat.pos_of_ne_zero h
      exact_mod_cast this
    have hlev : (lev a b : ℚ) ≤ (a.length : ℚ) + b.length := by
      exact_mod_cast lev_le a b
    apply div_nonneg _ hpos.le
    have : (0 : ℚ) ≤ ((a.length : ℚ) + b.length) - lev a b := by linarith
    linarith

theorem fuzzRatio_le (a b : List Char) : fuzzRatio a b ≤ 100 := by
  unfold fuzzRatio
  split
  · norm_num
  · rename_i h
    have hpos : (0 : ℚ) < (a.length : ℚ) + b.length := by
      have : 0 < a.length + b.length := Nat.pos_of_ne_zero h
      exact_mod_cast this
    rw [div_le_iff₀ hpos]
    have hlev : (0 : ℚ) ≤ (lev a b : ℚ) := by positivity
    nlinarith

theorem listAvg_bounds (l : List ℚ) (hl : l ≠ [])
    (h : ∀ x ∈ l, 0 ≤ x ∧ x ≤ 100) :
    0 ≤ l.sum / (l.length : ℚ) ∧ l.sum / (l.length : ℚ) ≤ 100 := by
  have hpos : (0 : ℚ) < (l.length : ℚ) := by
    have := List.length_pos.mpr hl
    exact_mod_cast this
  constructor
  · exact div_nonneg (List.sum_nonneg (fun x hx => (h x hx).1)) hpos.le
  · rw [div_le_iff₀ hpos]
    have hle := List.sum_le_card_nsmul l 100 (fun x hx => (h x hx).2)
    rw [nsmul_eq_mul] at hle
    linarith

theorem fuzzyLoop_bounds (pat : List (List Char)) (hpat : pat ≠ [])
    (s2 : List Char) :
    ∀ fuel i best, 0 ≤ best → best ≤ 100 →
      ∃ r, fuzzyLoop pat s2 fuel i best = some r ∧ 0 ≤ r ∧ r ≤ 100 := by
  intro fuel
  induction fuel with
  | zero => exact fun i best h0 h1 => ⟨best, rfl, h0, h1⟩
  | succ fuel ih =>
    intro i best h0 h1
    by_cases hi : i < s2.length
    · have hzlen : ((pat.zip (words (s2.drop i))).map
          (fun p => fuzzRatio p.1 p.2)).length =
          min pat.length (words (s2.drop i)).length := by
        simp [List.length_zip]
      by_cases hlt : (words (s2.drop i)).length < pat.length
      · refine ⟨best, ?_, h0, h1⟩
        simp only [fuzzyLoop, if_pos hi, if_pos hlt]
      · have hne : ((pat.zip (words (s2.drop i))).map
            (fun p => fuzzRatio p.1 p.2)).length ≠ 0 := by
          rw [hzlen]
          have := List.length_pos.mpr hpat
          omega
        have hbounds : ∀ x ∈ (pat.zip (words (s2.drop i))).map
            (fun p => fuzzRatio p.1 p.2), 0 ≤ x ∧ x ≤ 100 := by
          intro x hx
          rw [List.mem_map] at hx
          obtain ⟨p, _, rfl⟩ := hx
          exact ⟨fuzzRatio_nonneg _ _, fuzzRatio_le _ _⟩
        have hnil : (pat.zip (words (s2.drop i))).map
            (fun p => fuzzRatio p.1 p.2) ≠ [] := by
          intro hcon
          exact hne (by rw [hcon]; rfl)
        obtain ⟨havg0, havg1⟩ := listAvg_bounds _ hnil hbounds
        obtain ⟨r, hr, hr0, hr1⟩ := ih (i + 1)
          (if best < ((pat.zip (words (s2.drop i))).map
                (fun p => fuzzRatio p.1 p.2)).sum /
              (((pat.zip (words (s2.drop i))).map
                (fun p => fuzzRatio p.1 p.2)).length : ℚ) then
            ((pat.zip (words (s2.drop i))).map
                (fun p => fuzzRatio p.1 p.2)).sum /
              (((pat.zip (words (s2.drop i))).map
                (fun p => fuzzRatio p.1 p.2)).length : ℚ)
          else best)
          (by split <;> assumption)
          (by split <;> assumption)
        refine ⟨r, ?_, hr0, hr1⟩
        simp only [fuzzyLoop, if_pos hi, if_neg hlt, if_neg hne]
        exact hr
    · refine ⟨best, ?_, h0, h1⟩
      simp only [fuzzyLoop, if_neg hi]

/-! ### C8 -/

/-- C8: `fuzzy_similarity(query, text)` returns 0 when `text` is empty,
and more generally whenever the (lower-cased) text contains fewer word
tokens than the (lower-cased) query: the scan of offsets breaks at the
very first offset, before any ratio is computed. -/
theorem fuzzy_zero_short_text (q t : String)
    (h : t.data = [] ∨
      (words (lowerChars t.data)).length < (words (lowerChars q.data)).length) :
    fuzzySimilarity q t = some 0 := by
  unfold fuzzySimilarity
  rcases h with h | h
  · rw [h]
    rfl
  · rcases e : (lowerChars t.data).length with _ | m
    · rfl
    · simp only [fuzzyLoop]
      rw [if_pos (by omega : 0 < (lowerChars t.data).length)]
      simp only [List.drop_zero]
      rw [if_pos h]

/-- Witness for C8 at a concrete query and the empty text. -/
theorem fuzzy_zero_short_text_witness : fuzzySimilarity "abc" "" = some 0 :=
  fuzzy_zero_short_text "abc" "" (Or.inl rfl)

/-- Whenever the query contains a word token, `fuzzy_similarity`
terminates with a value in [0, 100] (shared helper). -/
theorem fuzzySimilarity_some (q t : String)
    (hq : words (lowerChars q.data) ≠ []) :
    ∃ r, fuzzySimilarity q t = some r ∧ 0 ≤ r ∧ r ≤ 100 := by
  unfold fuzzySimilarity
  exact fuzzyLoop_bounds _ hq _ _ 0 0 le_rfl (by norm_num)

/-! ### C3 -/

/-- C3 (code bug): `fuzzy_similarity` is claimed total with a result in
[0, 100] for every query and text.  The second conjunct proves this
whenever the query contains at least one word token.  But when the query
has no word tokens and the text is nonempty, the comprehension
`ratios` is empty and `sum(ratios) / len(ratios)` raises
`ZeroDivisionError`: the first conjunct evaluates the code at the
failing input `fuzzy_similarity("", "a")` (`none` = the raised
exception). -/
theorem fuzzy_similarity_total_check :
    fuzzySimilarity "" "a" = none ∧
    ∀ q t : String, words (lowerChars q.data) ≠ [] →
      ∃ r, fuzzySimilarity q t = some r ∧ 0 ≤ r ∧ r ≤ 100 := by
  constructor
  · rfl
  · exact fun q t hq => fuzzySimilarity_some q t hq

/-- Witness for C3's hypothesis-bearing conjunct at a concrete
token-carrying query. -/
theorem fuzzy_similarity_total_check_witness :
    ∃ r, fuzzySimilarity "ab" "xy" = some r ∧ 0 ≤ r ∧ r ≤ 100 :=
  fuzzy_similarity_total_check.2 "ab" "xy" (by decide)

/-! ### C7 -/

/-- C7 (counterexample): a channel record with every optional field
missing makes `transform_channel_data` raise when the query carries no
word token (the `fuzzy_similarity` call on the substituted
`"" : ""` text divides by zero), so "never raises" is false as stated. -/
theorem transform_channel_missing_fields_raises :
    transformChannelData ""
      [{ id := none, customUrl := none, title := none, description := none,
         videoCount := none, subscriberCount := none }] = none := by
  rfl

/-- C7 (amended): provided the query contains at least one word token,
`transform_channel_data` never raises on records with missing optional
fields: each absent field is substituted with the empty string at the
point of access (`customUrl` being absent leaves the bare base url), one
output row is produced per input record, and the blank
`videoCount`/`subscriberCount` strings are passed through as-is without
crashing anywhere downstream — the last conjunct: for every store state
and every sentiment table, the produced rows are stored, read back and
combined by `transform_data` into a ranked output (`some`, never an
error), blank counts being ranked like any other column value. -/
theorem transform_channel_missing_fields (query : String)
    (items : List ChannelItem)
    (hq : words (lowerChars query.data) ≠ []) :
    ∃ rows, transformChannelData query items = some rows ∧
      rows.length = items.length ∧
      (∀ it ∈ items, ∃ r : ChannelRow, transformChannelItem query it = some r ∧
        r.channelId = it.id.getD "" ∧
        r.title = it.title.getD "" ∧
        r.url = "https://www.youtube.com/" ++ it.customUrl.getD "" ∧
        r.description = it.description.getD "" ∧
        r.videos = it.videoCount.getD "" ∧
        r.subscribers = it.subscriberCount.getD "") ∧
      ∀ (st : Store) (ss : List SentimentRow),
        transformData (runQueryStore st rows ss) = some (combine rows ss) := by
  have hdown : ∀ (rows : List ChannelRow) (st : Store) (ss : List SentimentRow),
      transformData (runQueryStore st rows ss) = some (combine rows ss) := by
    intro rows st ss
    simp [transformData, runQueryStore, storeResults]
  have hitem : ∀ it : ChannelItem, ∃ r : ChannelRow,
      transformChannelItem query it = some r ∧
      r.channelId = it.id.getD "" ∧
      r.title = it.title.getD "" ∧
      r.url = "https://www.youtube.com/" ++ it.customUrl.getD "" ∧
      r.description = it.description.getD "" ∧
      r.videos = it.videoCount.getD "" ∧
      r.subscribers = it.subscriberCount.getD "" := by
    intro it
    obtain ⟨sim, hsim, -, -⟩ := fuzzySimilarity_some query
      ((it.title.getD "") ++ " : " ++ (it.description.getD "")) hq
    refine ⟨ChannelRow.mk (it.id.getD "") (it.title.getD "")
      ("https://www.youtube.com/" ++ it.customUrl.getD "")
      (it.description.getD "") (it.videoCount.getD "")
      (it.subscriberCount.getD "") sim, ?_, rfl, rfl, rfl, rfl, rfl, rfl⟩
    unfold transformChannelItem
    rw [hsim]
    rfl
  clear hq
  induction items with
  | nil =>
    exact ⟨[], rfl, rfl, fun it hit => absurd hit (List.not_mem_nil it), hdown []⟩
  | cons it its ih =>
    obtain ⟨rows, hrows, hlen, hmem, -⟩ := ih
    obtain ⟨r, hr, hfacts⟩ := hitem it
    refine ⟨r :: rows, ?_, by simp [hlen], ?_, hdown (r :: rows)⟩
    · unfold transformChannelData at hrows ⊢
      rw [List.mapM_cons, hr, hrows]
      rfl
    · intro x hx
      rcases List.mem_cons.mp hx with hx | hx
      · subst hx
        exact ⟨r, hr, hfacts⟩
      · exact hmem x hx

/-- Witness for C7's amended theorem at a one-token query and a record
with every optional field missing. -/
theorem transform_channel_missing_fields_witness :
    ∃ rows, transformChannelData "ab"
        [ChannelItem.mk none none none none none none] = some rows ∧
      rows.length = [ChannelItem.mk none none none none none none].length ∧
      (∀ it ∈ [ChannelItem.mk none none none none none none],
        ∃ r : ChannelRow, transformChannelItem "ab" it = some r ∧
          r.channelId = it.id.getD "" ∧
          r.title = it.title.getD "" ∧
          r.url = "https://www.youtube.com/" ++ it.customUrl.getD "" ∧
          r.description = it.description.getD "" ∧
          r.videos = it.videoCount.getD "" ∧
          r.subscribers = it.subscriberCount.getD "") ∧
      ∀ (st : Store) (ss : List SentimentRow),
        transformData (runQueryStore st rows ss) = some (combine rows ss) :=
  transform_channel_missing_fields "ab" _ (by decide)

/-! ### C4 -/

/-- Each loop iteration issues at most one request, so the request count
is bounded by the initial fuel (= the page cap). -/
theorem searchLoop_reqs_le (up : Nat → Option SearchResponse) :
    ∀ fuel acc reqs, (searchLoop up fuel acc reqs).2 ≤ reqs + fuel := by
  intro fuel
  induction fuel with
  | zero => intro acc reqs; simp [searchLoop]
  | succ fuel ih =>
    intro acc reqs
    simp only [searchLoop]
    by_cases hg : 5 ≤ acc.length
    · rw [if_pos hg]
      omega
    · rw [if_neg hg]
      cases hup : up reqs with
      | none =>
        show reqs + 1 ≤ reqs + (fuel + 1)
        omega
      | some r =>
        by_cases ht : tokenTruthy r.nextPageToken = true
        · show (if tokenTruthy r.nextPageToken = true then
              searchLoop up fuel (acc ++ [r]) (reqs + 1)
            else (acc ++ [r], reqs + 1)).2 ≤ reqs + (fuel + 1)
          rw [if_pos ht]
          have := ih (acc ++ [r]) (reqs + 1)
          omega
        · show (if tokenTruthy r.nextPageToken = true then
              searchLoop up fuel (acc ++ [r]) (reqs + 1)
            else (acc ++ [r], reqs + 1)).2 ≤ reqs + (fuel + 1)
          rw [if_neg ht]
          omega

/-- If the first `k` requests succeed with truthy continuation tokens and
the `(k+1)`-st fails, the loop run from iteration `m ≤ k` ends with the
`k` fetched pages kept and `k + 1` requests issued. -/
theorem searchLoop_fail (up : Nat → Option SearchResponse)
    (resp : Nat → SearchResponse) (k : Nat) (hk : k < 5)
    (hfail : up k = none)
    (hprev : ∀ j, j < k →
      up j = some (resp j) ∧ tokenTruthy (resp j).nextPageToken = true) :
    ∀ d m, m + d = k →
      searchLoop up (5 - m) ((List.range m).map resp) m =
        ((List.range k).map resp, k + 1) := by
  intro d
  induction d with
  | zero =>
    intro m hm
    have hm' : m = k := by omega
    subst hm'
    obtain ⟨f, hf⟩ : ∃ f, 5 - m = f + 1 := ⟨5 - m - 1, by omega⟩
    rw [hf]
    simp only [searchLoop]
    rw [if_neg (by simp [List.length_map, List.length_range]; omega), hfail]
  | succ d ih =>
    intro m hm
    have hmk : m < k := by omega
    obtain ⟨f, hf⟩ : ∃ f, 5 - m = f + 1 := ⟨5 - m - 1, by omega⟩
    rw [hf]
    simp only [searchLoop]
    rw [if_neg (by simp [List.length_map, List.length_range]; omega)]
    obtain ⟨hup, htok⟩ := hprev m hmk
    rw [hup]
    simp only [htok, if_true]
    have hacc : (List.range m).map resp ++ [resp m] =
        (List.range (m + 1)).map resp := by
      rw [List.range_succ, List.map_append]
      rfl
    have hfuel : f = 5 - (m + 1) := by omega
    rw [hacc, hfuel]
    exact ih (m + 1) (by omega)

/-- C4: the Search Extractor issues at most the page cap (5) of search
requests for every upstream behaviour, and when the `(k+1)`-st request
fails after `k` successful token-carrying pages, paging stops (exactly
`k + 1` requests are issued) while the items of the `k` already-fetched
pages are still emitted. -/
theorem search_page_cap (up : Nat → Option SearchResponse) (k : Nat)
    (resp : Nat → SearchResponse) (hk : k < 5) (hfail : up k = none)
    (hprev : ∀ j, j < k →
      up j = some (resp j) ∧ tokenTruthy (resp j).nextPageToken = true) :
    (∀ up' : Nat → Option SearchResponse, (searchLoop up' 5 [] 0).2 ≤ 5) ∧
    searchLoop up 5 [] 0 = ((List.range k).map resp, k + 1) ∧
    extractSearchData up = ((List.range k).map resp).flatMap
      (fun r => r.items.map (fun it => (it.videoId, it.channelId))) := by
  have hrun : searchLoop up 5 [] 0 = ((List.range k).map resp, k + 1) := by
    have := searchLoop_fail up resp k hk hfail hprev k 0 (by omega)
    simpa using this
  refine ⟨fun up' => searchLoop_reqs_le up' 5 [] 0, hrun, ?_⟩
  unfold extractSearchData
  rw [hrun]

/-- Witness for C4: an upstream whose third request fails after two pages
with continuation tokens. -/
theorem search_page_cap_witness :
    (∀ up' : Nat → Option SearchResponse, (searchLoop up' 5 [] 0).2 ≤ 5) ∧
    searchLoop (fun n => if n == 2 then none
        else some (SearchResponse.mk [] (some "t"))) 5 [] 0 =
      ((List.range 2).map (fun _ => SearchResponse.mk [] (some "t")), 2 + 1) ∧
    extractSearchData (fun n => if n == 2 then none
        else some (SearchResponse.mk [] (some "t"))) =
      ((List.range 2).map (fun _ => SearchResponse.mk [] (some "t"))).flatMap
        (fun r => r.items.map (fun it => (it.videoId, it.channelId))) :=
  search_page_cap
    (fun n => if n == 2 then none else some (SearchResponse.mk [] (some "t")))
    2 (fun _ => SearchResponse.mk [] (some "t"))
    (by decide) (by decide) (by decide)

/-! ### C5 -/

theorem addVideo_entry_same (g : List (String × List String)) (c v : String) :
    entryOf (addVideo g c v) c = entryOf g c ++ [v] := by
  induction g with
  | nil => simp [addVideo, entryOf]
  | cons e rest ih =>
    by_cases h : e.1 = c
    · simp [addVideo, entryOf, h]
    · have hb : (e.1 == c) = false := by simp [h]
      simp only [addVideo]
      rw [if_neg h]
      simp only [entryOf, List.find?_cons, hb]
      exact ih

theorem addVideo_entry_other (g : List (String × List String)) (c v c' : String)
    (h : c' ≠ c) : entryOf (addVideo g c v) c' = entryOf g c' := by
  induction g with
  | nil =>
    simp [addVideo, entryOf, List.find?_cons, Ne.symm h]
  | cons e rest ih =>
    by_cases he : e.1 = c
    · simp only [addVideo]
      rw [if_pos he]
      have hb : (e.1 == c') = false := by simp [he]; exact fun hc => h hc.symm
      simp [entryOf, List.find?_cons, hb]
    · simp only [addVideo]
      rw [if_neg he]
      by_cases he' : e.1 = c'
      · simp [entryOf, List.find?_cons, he']
      · have hb : (e.1 == c') = false := by simp [he']
        simp only [entryOf, List.find?_cons, hb]
        exact ih

theorem groupVideos_entry (sd : List (String × String)) (c : String) :
    entryOf (groupVideos sd) c = videosOf sd c := by
  suffices h : ∀ g : List (String × List String),
      entryOf (sd.foldl (fun g p => addVideo g p.2 p.1) g) c =
        entryOf g c ++ videosOf sd c by
    have := h []
    simpa [groupVideos, entryOf] using this
  induction sd with
  | nil => intro g; simp [videosOf]
  | cons p rest ih =>
    intro g
    simp only [List.foldl_cons]
    rw [ih (addVideo g p.2 p.1)]
    by_cases hc : p.2 = c
    · have hv : videosOf (p :: rest) c = p.1 :: videosOf rest c := by
        simp [videosOf, List.filter_cons, hc]
      rw [hv, hc, addVideo_entry_same]
      simp
    · have hv : videosOf (p :: rest) c = videosOf rest c := by
        have hb : (p.2 == c) = false := by simp [hc]
        simp [videosOf, List.filter_cons, hb]
      rw [hv, addVideo_entry_other g p.2 p.1 c (Ne.symm hc)]

theorem addVideo_keys_mem (g : List (String × List String)) (c v x : String)
    (hx : x ∈ (addVideo g c v).map (fun e => e.1)) :
    x ∈ g.map (fun e => e.1) ∨ x = c := by
  induction g with
  | nil => simpa [addVideo] using hx
  | cons e rest ih =>
    by_cases he : e.1 = c
    · simp only [addVideo] at hx
      rw [if_pos he] at hx
      simp only [List.map_cons, List.mem_cons] at hx ⊢
      tauto
    · simp only [addVideo] at hx
      rw [if_neg he] at hx
      simp only [List.map_cons, List.mem_cons] at hx ⊢
      rcases hx with hx | hx
      · exact Or.inl (Or.inl hx)
      · rcases ih hx with h | h
        · exact Or.inl (Or.inr h)
        · exact Or.inr h

theorem addVideo_keys_nodup (g : List (String × List String)) (c v : String)
    (h : (g.map (fun e => e.1)).Nodup) :
    ((addVideo g c v).map (fun e => e.1)).Nodup := by
  induction g with
  | nil => simp [addVideo]
  | cons e rest ih =>
    simp only [List.map_cons, List.nodup_cons] at h
    by_cases he : e.1 = c
    · simp only [addVideo]
      rw [if_pos he]
      simp only [List.map_cons, List.nodup_cons]
      exact h
    · simp only [addVideo]
      rw [if_neg he]
      simp only [List.map_cons, List.nodup_cons]
      refine ⟨?_, ih h.2⟩
      intro hcon
      rcases addVideo_keys_mem rest c v e.1 hcon with hm | hm
      · exact h.1 hm
      · exact he hm

theorem groupVideos_keys_nodup (sd : List (String × String)) :
    ((groupVideos sd).map (fun e => e.1)).Nodup := by
  suffices h : ∀ g : List (String × List String),
      (g.map (fun e => e.1)).Nodup →
      ((sd.foldl (fun g p => addVideo g p.2 p.1) g).map (fun e => e.1)).Nodup by
    exact h [] (by simp)
  induction sd with
  | nil => exact fun g hg => hg
  | cons p rest ih =>
    intro g hg
    simp only [List.foldl_cons]
    exact ih (addVideo g p.2 p.1) (addVideo_keys_nodup g p.2 p.1 hg)

theorem flatMap_filter_key (sample : List String → List String) :
    ∀ (gs : List (String × List String)) (c : String) (vl : List String),
      (gs.map (fun e => e.1)).Nodup → entryOf gs c = vl →
      ((gs.flatMap (fun g => (chooseVideos sample g.2).map (fun v => (g.1, v)))).filter
          (fun p => p.1 == c)) =
        (chooseVideos sample vl).map (fun v => (c, v)) := by
  intro gs
  induction gs with
  | nil =>
    intro c vl _ hvl
    simp only [entryOf, List.find?_nil] at hvl
    simp only [List.flatMap_nil, List.filter_nil]
    rw [← hvl]
    simp [chooseVideos]
  | cons g rest ih =>
    intro c vl hnodup hvl
    obtain ⟨a, vs⟩ := g
    simp only [List.map_cons, List.nodup_cons] at hnodup
    simp only [List.flatMap_cons, List.filter_append]
    by_cases hgc : a = c
    · subst hgc
      have hvl' : vl = vs := by
        have hb : (a == a) = true := by simp
        simp only [entryOf, List.find?_cons, hb] at hvl
        exact hvl.symm
      have h1 : ((chooseVideos sample vs).map (fun v => (a, v))).filter
          (fun p => p.1 == a) = (chooseVideos sample vs).map (fun v => (a, v)) := by
        apply List.filter_eq_self.mpr
        intro x hx
        rw [List.mem_map] at hx
        obtain ⟨v, -, rfl⟩ := hx
        simp
      have h2 : ((rest.flatMap (fun g => (chooseVideos sample g.2).map
          (fun v => (g.1, v)))).filter (fun p => p.1 == a)) = [] := by
        rw [List.filter_eq_nil_iff]
        intro x hx
        rw [List.mem_flatMap] at hx
        obtain ⟨e, he, hxe⟩ := hx
        rw [List.mem_map] at hxe
        obtain ⟨v, -, rfl⟩ := hxe
        have hkey : e.1 ∈ rest.map (fun e => e.1) := List.mem_map.mpr ⟨e, he, rfl⟩
        have hne : e.1 ≠ a := by
          intro hcon
          rw [hcon] at hkey
          exact hnodup.1 hkey
        simp [hne]
      rw [h1, h2, hvl']
      simp
    · have hb : (a == c) = false := by simp [hgc]
      have h1 : ((chooseVideos sample vs).map (fun v => (a, v))).filter
          (fun p => p.1 == c) = [] := by
        rw [List.filter_eq_nil_iff]
        intro x hx
        rw [List.mem_map] at hx
        obtain ⟨v, -, rfl⟩ := hx
        simp [hgc]
      have hvl' : entryOf rest c = vl := by
        simp only [entryOf, List.find?_cons, hb] at hvl
        exact hvl
      rw [h1, ih c vl hnodup.2 hvl']
      rfl

/-- The fetch calls attributed to channel `c` are exactly its chosen
videos. -/
theorem fetchCalls_filter (sample : List String → List String)
    (sd : List (String × String)) (c : String) :
    (commentFetchCalls sample sd).filter (fun p => p.1 == c) =
      (chooseVideos sample (videosOf sd c)).map (fun v => (c, v)) :=
  flatMap_filter_key sample (groupVideos sd) c (videosOf sd c)
    (groupVideos_keys_nodup sd) (groupVideos_entry sd c)

/-- C5: provided the sampler returns 2 videos when handed this channel's
more-than-2-video group (the contract of `random.sample(video_list, 2)`),
a channel whose group holds more than 2 distinct videos gets exactly 2
comment-thread fetch calls, and a channel with at most 2 videos has all
of its videos fetched, in order. -/
theorem comment_sampling_bound (sample : List String → List String)
    (sd : List (String × String)) (c : String)
    (hsamp : 2 < (videosOf sd c).length → (sample (videosOf sd c)).length = 2) :
    (2 < ((videosOf sd c).dedup).length →
      ((commentFetchCalls sample sd).filter (fun p => p.1 == c)).length = 2) ∧
    ((videosOf sd c).length ≤ 2 →
      (commentFetchCalls sample sd).filter (fun p => p.1 == c) =
        (videosOf sd c).map (fun v => (c, v))) := by
  constructor
  · intro hdistinct
    have hlen : 2 < (videosOf sd c).length :=
      lt_of_lt_of_le hdistinct (List.Sublist.length_le (List.dedup_sublist _))
    rw [fetchCalls_filter, List.length_map, chooseVideos, if_pos hlen]
    exact hsamp hlen
  · intro hle
    rw [fetchCalls_filter, chooseVideos, if_neg (by omega)]

/-- Witness for C5: a channel with three distinct videos under a take-2
sampler gets exactly 2 fetch calls. -/
theorem comment_sampling_bound_witness :
    (2 < ((videosOf [("v1", "A"), ("v2", "A"), ("v3", "A")] "A").dedup).length →
      ((commentFetchCalls (fun l => l.take 2)
          [("v1", "A"), ("v2", "A"), ("v3", "A")]).filter
        (fun p => p.1 == "A")).length = 2) ∧
    ((videosOf [("v1", "A"), ("v2", "A"), ("v3", "A")] "A").length ≤ 2 →
      (commentFetchCalls (fun l => l.take 2)
          [("v1", "A"), ("v2", "A"), ("v3", "A")]).filter (fun p => p.1 == "A") =
        (videosOf [("v1", "A"), ("v2", "A"), ("v3", "A")] "A").map
          (fun v => ("A", v))) :=
  comment_sampling_bound (fun l => l.take 2)
    [("v1", "A"), ("v2", "A"), ("v3", "A")] "A" (by decide)

/-! ### C6 -/

/-- C6: the Comment Aggregator outputs exactly one row per channelId
with at least one sampled comment (one row per id — no duplicates — and
an id appears iff it has a sample; a channel with zero samples is absent,
not zero-filled); each row's score is the arithmetic mean of the scores
of all samples attributed to that channel; and a thread with one
top-level comment and two replies contributes exactly three samples, all
attributed to the thread's channel. -/
theorem comment_aggregation (senti : String → ℚ)
    (responses : List (List ThreadItem)) :
    ((transformCommentThreadData senti responses).map (fun p => p.1)).Nodup ∧
    (∀ c : String,
      (∃ p ∈ transformCommentThreadData senti responses, p.1 = c) ↔
        ∃ q ∈ commentSamples senti responses, q.1 = c) ∧
    (∀ p ∈ transformCommentThreadData senti responses,
      ((commentSamples senti responses).filter (fun q => q.1 == p.1)) ≠ [] ∧
      p.2 = (((commentSamples senti responses).filter
            (fun q => q.1 == p.1)).map (fun q => q.2)).sum /
          ((((commentSamples senti responses).filter
            (fun q => q.1 == p.1)).map (fun q => q.2)).length : ℚ)) ∧
    (∀ cid top r1 r2 : String,
      (threadSamples senti
        (ThreadItem.mk (some cid) (some top) [some r1, some r2])).length = 3 ∧
      ∀ q ∈ threadSamples senti
          (ThreadItem.mk (some cid) (some top) [some r1, some r2]),
        q.1 = cid) := by
  refine ⟨?_, ?_, ?_, ?_⟩
  · unfold transformCommentThreadData
    rw [List.map_map]
    have hid : ((fun p : String × ℚ => p.1) ∘ (fun c =>
        (c, (((commentSamples senti responses).filter
            (fun p => p.1 == c)).map (fun p => p.2)).sum /
          ((((commentSamples senti responses).filter
            (fun p => p.1 == c)).map (fun p => p.2)).length : ℚ)))) =
        fun c : String => c := rfl
    rw [hid]
    simpa using List.nodup_dedup ((commentSamples senti responses).map (fun p => p.1))
  · intro c
    constructor
    · rintro ⟨p, hp, rfl⟩
      unfold transformCommentThreadData at hp
      rw [List.mem_map] at hp
      obtain ⟨c', hc', rfl⟩ := hp
      rw [List.mem_dedup, List.mem_map] at hc'
      obtain ⟨q, hq, hq1⟩ := hc'
      exact ⟨q, hq, hq1⟩
    · rintro ⟨q, hq, hqc⟩
      refine ⟨(c, (((commentSamples senti responses).filter
            (fun p => p.1 == c)).map (fun p => p.2)).sum /
          ((((commentSamples senti responses).filter
            (fun p => p.1 == c)).map (fun p => p.2)).length : ℚ)), ?_, rfl⟩
      unfold transformCommentThreadData
      rw [List.mem_map]
      refine ⟨c, ?_, rfl⟩
      rw [List.mem_dedup, List.mem_map]
      exact ⟨q, hq, hqc⟩
  · intro p hp
    unfold transformCommentThreadData at hp
    rw [List.mem_map] at hp
    obtain ⟨c, hc, rfl⟩ := hp
    rw [List.mem_dedup, List.mem_map] at hc
    obtain ⟨q, hq, hq1⟩ := hc
    constructor
    · intro hcon
      have hmem : q ∈ (commentSamples senti responses).filter
          (fun q => q.1 == c) :=
        List.mem_filter.mpr ⟨hq, by simp [hq1]⟩
      rw [hcon] at hmem
      exact absurd hmem (List.not_mem_nil q)
    · rfl
  · intro cid top r1 r2
    refine ⟨rfl, ?_⟩
    intro q hq
    simp only [threadSamples, Option.getD_some, List.map_cons, List.map_nil,
      List.mem_cons, List.not_mem_nil, or_false] at hq
    rcases hq with rfl | rfl | rfl <;> rfl

/-! ### Dense-rank lemmas for C1 -/

theorem denseRankDesc_perm {α : Type} [LinearOrder α] [DecidableEq α]
    {l l' : List α} (h : l.Perm l') (v : α) :
    denseRankDesc l v = denseRankDesc l' v := by
  unfold denseRankDesc
  rw [List.toFinset_eq_of_perm l l' h]

theorem denseRankDesc_lt {α : Type} [LinearOrder α] [DecidableEq α]
    (vs : List α) {v u : α} (hv : v ∈ vs) (h : u < v) :
    denseRankDesc vs v < denseRankDesc vs u := by
  unfold denseRankDesc
  have hsub : vs.toFinset.filter (fun w => v < w) ⊂
      vs.toFinset.filter (fun w => u < w) := by
    rw [Finset.ssubset_iff_of_subset]
    · exact ⟨v, Finset.mem_filter.mpr ⟨List.mem_toFinset.mpr hv, h⟩,
        fun hcon => lt_irrefl v (Finset.mem_filter.mp hcon).2⟩
    · intro w hw
      rw [Finset.mem_filter] at hw ⊢
      exact ⟨hw.1, lt_trans h hw.2⟩
  have := Finset.card_lt_card hsub
  omega

theorem denseRankDesc_le_card {α : Type} [LinearOrder α] [DecidableEq α]
    (vs : List α) {v : α} (hv : v ∈ vs) :
    denseRankDesc vs v ≤ vs.dedup.length := by
  rw [← List.card_toFinset]
  unfold denseRankDesc
  have hsub : vs.toFinset.filter (fun w => v < w) ⊆ vs.toFinset.erase v := by
    intro w hw
    rw [Finset.mem_filter] at hw
    rw [Finset.mem_erase]
    exact ⟨ne_of_gt hw.2, hw.1⟩
  have h1 := Finset.card_le_card hsub
  have h2 : (vs.toFinset.erase v).card = vs.toFinset.card - 1 :=
    Finset.card_erase_of_mem (List.mem_toFinset.mpr hv)
  have h3 : 0 < vs.toFinset.card :=
    Finset.card_pos.mpr ⟨v, List.mem_toFinset.mpr hv⟩
  omega

theorem denseRankDesc_exists_one {α : Type} [LinearOrder α] [DecidableEq α]
    (vs : List α) (h : vs ≠ []) : ∃ v ∈ vs, denseRankDesc vs v = 1 := by
  have hne : vs.toFinset.Nonempty := by
    obtain ⟨x, hx⟩ := List.exists_mem_of_ne_nil vs h
    exact ⟨x, List.mem_toFinset.mpr hx⟩
  refine ⟨vs.toFinset.max' hne,
    List.mem_toFinset.mp (Finset.max'_mem _ hne), ?_⟩
  unfold denseRankDesc
  have hempty : vs.toFinset.filter (fun w => vs.toFinset.max' hne < w) = ∅ := by
    rw [Finset.filter_eq_empty_iff]
    intro w hw
    exact not_lt.mpr (Finset.le_max' _ w hw)
  rw [hempty]
  rfl

theorem denseRankDesc_no_gap {α : Type} [LinearOrder α] [DecidableEq α]
    (vs : List α) {v : α} (_hv : v ∈ vs) (h : 2 ≤ denseRankDesc vs v) :
    ∃ u ∈ vs, denseRankDesc vs u + 1 = denseRankDesc vs v := by
  have hTne : (vs.toFinset.filter (fun w => v < w)).Nonempty := by
    rw [← Finset.card_pos]
    unfold denseRankDesc at h
    omega
  have huT := Finset.min'_mem _ hTne
  have huv : v < (vs.toFinset.filter (fun w => v < w)).min' hTne :=
    (Finset.mem_filter.mp huT).2
  refine ⟨(vs.toFinset.filter (fun w => v < w)).min' hTne,
    List.mem_toFinset.mp (Finset.mem_filter.mp huT).1, ?_⟩
  unfold denseRankDesc
  have heq : vs.toFinset.filter
      (fun w => (vs.toFinset.filter (fun w => v < w)).min' hTne < w) =
      (vs.toFinset.filter (fun w => v < w)).erase
        ((vs.toFinset.filter (fun w => v < w)).min' hTne) := by
    ext w
    rw [Finset.mem_filter, Finset.mem_erase, Finset.mem_filter]
    constructor
    · rintro ⟨hw1, hw2⟩
      exact ⟨ne_of_gt hw2, hw1, lt_trans huv hw2⟩
    · rintro ⟨hne, hw1, hw2⟩
      have hle : (vs.toFinset.filter (fun w => v < w)).min' hTne ≤ w :=
        Finset.min'_le _ _ (Finset.mem_filter.mpr ⟨hw1, hw2⟩)
      exact ⟨hw1, lt_of_le_of_ne hle (Ne.symm hne)⟩
  rw [heq, Finset.card_erase_of_mem huT]
  have hpos : 0 < (vs.toFinset.filter (fun w => v < w)).card :=
    Finset.card_pos.mpr hTne
  omega

/-- The dense-ranking contract for one criterion: `g` reads the ranked
value off a row, `grank` reads the assigned rank, and `hrank` says the
rank was computed as the descending dense rank of the value in the
column.  Ties share a rank, a strictly greater value gets a strictly
smaller (better) rank, ranks lie in `[1, #distinct values]`, rank 1 is
attained, and ranks have no gaps. -/
theorem denseRank_column_spec {α : Type} [LinearOrder α] [DecidableEq α]
    {β : Type} (rows : List β) (g : β → α) (grank : β → ℕ)
    (hrank : ∀ r ∈ rows, grank r = denseRankDesc (rows.map g) (g r)) :
    (∀ r1 ∈ rows, ∀ r2 ∈ rows,
      (g r1 = g r2 → grank r1 = grank r2) ∧
      (g r2 < g r1 → grank r1 < grank r2)) ∧
    (∀ r ∈ rows, 1 ≤ grank r ∧ grank r ≤ ((rows.map g).dedup).length) ∧
    (rows ≠ [] → ∃ r ∈ rows, grank r = 1) ∧
    (∀ r ∈ rows, 2 ≤ grank r → ∃ u ∈ rows, grank u + 1 = grank r) := by
  refine ⟨?_, ?_, ?_, ?_⟩
  · intro r1 h1 r2 h2
    rw [hrank r1 h1, hrank r2 h2]
    constructor
    · intro heq
      rw [heq]
    · intro hlt
      exact denseRankDesc_lt (rows.map g) (List.mem_map.mpr ⟨r1, h1, rfl⟩) hlt
  · intro r hr
    rw [hrank r hr]
    constructor
    · unfold denseRankDesc
      omega
    · exact denseRankDesc_le_card _ (List.mem_map.mpr ⟨r, hr, rfl⟩)
  · intro hne
    have hmapne : rows.map g ≠ [] := by
      intro hcon
      exact hne (List.map_eq_nil_iff.mp hcon)
    obtain ⟨v, hv, hv1⟩ := denseRankDesc_exists_one (rows.map g) hmapne
    rw [List.mem_map] at hv
    obtain ⟨r, hr, rfl⟩ := hv
    exact ⟨r, hr, by rw [hrank r hr]; exact hv1⟩
  · intro r hr h2
    rw [hrank r hr] at h2 ⊢
    obtain ⟨u, hu, hueq⟩ := denseRankDesc_no_gap (rows.map g)
      (List.mem_map.mpr ⟨r, hr, rfl⟩) h2
    rw [List.mem_map] at hu
    obtain ⟨u', hu', rfl⟩ := hu
    exact ⟨u', hu', by rw [hrank u' hu']; exact hueq⟩

/-- Every row of `combine`'s output carries the four descending dense
ranks of its values in the joined table's columns, and the average rank
is their mean. -/
theorem combine_rank_fields (cs : List ChannelRow) (ss : List SentimentRow) :
    ∀ r ∈ combine cs ss,
      r.videosRank =
        denseRankDesc ((combine cs ss).map (fun x => x.videos)) r.videos ∧
      r.subscribersRank =
        denseRankDesc ((combine cs ss).map (fun x => x.subscribers)) r.subscribers ∧
      r.scoreRank =
        denseRankDesc ((combine cs ss).map (fun x => x.score)) r.score ∧
      r.similarityRank =
        denseRankDesc ((combine cs ss).map (fun x => x.similarity)) r.similarity ∧
      r.averageRank = ((r.videosRank : ℚ) + (r.subscribersRank : ℚ) +
        (r.scoreRank : ℚ) + (r.similarityRank : ℚ)) / 4 := by
  intro r hr
  have hperm := combine_perm cs ss
  have hr' := hperm.mem_iff.mp hr
  rw [List.mem_map] at hr'
  obtain ⟨p, hp, rfl⟩ := hr'
  have hvids : ((combine cs ss).map (fun x => x.videos)).Perm
      ((innerJoin cs ss).map (fun q => q.1.videos)) := by
    have h1 := hperm.map (fun x : RankedRow => x.videos)
    rw [List.map_map] at h1
    exact h1
  have hsubs : ((combine cs ss).map (fun x => x.subscribers)).Perm
      ((innerJoin cs ss).map (fun q => q.1.subscribers)) := by
    have h1 := hperm.map (fun x : RankedRow => x.subscribers)
    rw [List.map_map] at h1
    exact h1
  have hscore : ((combine cs ss).map (fun x => x.score)).Perm
      ((innerJoin cs ss).map (fun q => q.2)) := by
    have h1 := hperm.map (fun x : RankedRow => x.score)
    rw [List.map_map] at h1
    exact h1
  have hsim : ((combine cs ss).map (fun x => x.similarity)).Perm
      ((innerJoin cs ss).map (fun q => q.1.similarity)) := by
    have h1 := hperm.map (fun x : RankedRow => x.similarity)
    rw [List.map_map] at h1
    exact h1
  refine ⟨?_, ?_, ?_, ?_, rfl⟩
  · exact (denseRankDesc_perm hvids _).symm
  · exact (denseRankDesc_perm hsubs _).symm
  · exact (denseRankDesc_perm hscore _).symm
  · exact (denseRankDesc_perm hsim _).symm

/-- `combine`'s output is sorted ascending by `Average_Rank`
(`sort_values(by="Average_Rank")`). -/
theorem combine_sorted (cs : List ChannelRow) (ss : List SentimentRow) :
    List.Pairwise (fun a b : RankedRow => a.averageRank ≤ b.averageRank)
      (combine cs ss) := by
  have htrans : ∀ a b c : RankedRow,
      (decide (a.averageRank ≤ b.averageRank)) = true →
      (decide (b.averageRank ≤ c.averageRank)) = true →
      (decide (a.averageRank ≤ c.averageRank)) = true := by
    intro a b c hab hbc
    rw [decide_eq_true_iff] at hab hbc ⊢
    exact le_trans hab hbc
  have htotal : ∀ a b : RankedRow,
      ((decide (a.averageRank ≤ b.averageRank)) ||
        (decide (b.averageRank ≤ a.averageRank))) = true := by
    intro a b
    rw [Bool.or_eq_true, decide_eq_true_iff, decide_eq_true_iff]
    exact le_total _ _
  have h := List.sorted_mergeSort htrans htotal
    ((innerJoin cs ss).map (fun p =>
      let vr := denseRankDesc ((innerJoin cs ss).map (fun q => q.1.videos)) p.1.videos
      let sr := denseRankDesc ((innerJoin cs ss).map (fun q => q.1.subscribers)) p.1.subscribers
      let scr := denseRankDesc ((innerJoin cs ss).map (fun q => q.2)) p.2
      let sir := denseRankDesc ((innerJoin cs ss).map (fun q => q.1.similarity)) p.1.similarity
      { channelId := p.1.channelId
        title := p.1.title
        url := p.1.url
        description := p.1.description
        videos := p.1.videos
        subscribers := p.1.subscribers
        similarity := p.1.similarity
        score := p.2
        videosRank := vr
        subscribersRank := sr
        scoreRank := scr
        similarityRank := sir
        averageRank := ((vr : ℚ) + (sr : ℚ) + (scr : ℚ) + (sir : ℚ)) / 4 }))
  exact h.imp (fun hab => of_decide_eq_true hab)

/-! ### C1 -/

/-- C1: for input tables with distinct channelIds, every joined row of
`combine`'s output carries four dense ranks computed descending on
videos, subscribers, sentiment score and similarity — rows tied on a
value share that criterion's rank, a strictly greater value gets a
strictly smaller rank, ranks lie in `[1, #distinct values]`, rank 1 is
attained and ranks have no gaps (so they are consecutive integers
starting at 1; for values `[10, 10, 5]` the ranks are `[1, 1, 2]`) —
`Average_Rank` is the arithmetic mean of the four ranks, and the rows
come out sorted ascending by `Average_Rank`. -/
theorem combine_dense_ranking (cs : List ChannelRow) (ss : List SentimentRow)
    (_hcs : (cs.map (fun r => r.channelId)).Nodup)
    (_hss : (ss.map (fun s => s.channelId)).Nodup) :
    List.Pairwise (fun a b : RankedRow => a.averageRank ≤ b.averageRank)
      (combine cs ss) ∧
    (∀ r ∈ combine cs ss,
      r.averageRank = ((r.videosRank : ℚ) + (r.subscribersRank : ℚ) +
        (r.scoreRank : ℚ) + (r.similarityRank : ℚ)) / 4) ∧
    ((∀ r1 ∈ combine cs ss, ∀ r2 ∈ combine cs ss,
      (r1.videos = r2.videos → r1.videosRank = r2.videosRank) ∧
      (r2.videos < r1.videos → r1.videosRank < r2.videosRank)) ∧
    (∀ r ∈ combine cs ss,
      1 ≤ r.videosRank ∧
        r.videosRank ≤ ((combine cs ss).map (fun x => x.videos)).dedup.length) ∧
    (combine cs ss ≠ [] → ∃ r ∈ combine cs ss, r.videosRank = 1) ∧
    (∀ r ∈ combine cs ss, 2 ≤ r.videosRank →
      ∃ u ∈ combine cs ss, u.videosRank + 1 = r.videosRank)) ∧
    ((∀ r1 ∈ combine cs ss, ∀ r2 ∈ combine cs ss,
      (r1.subscribers = r2.subscribers → r1.subscribersRank = r2.subscribersRank) ∧
      (r2.subscribers < r1.subscribers → r1.subscribersRank < r2.subscribersRank)) ∧
    (∀ r ∈ combine cs ss,
      1 ≤ r.subscribersRank ∧
        r.subscribersRank ≤ ((combine cs ss).map (fun x => x.subscribers)).dedup.length) ∧
    (combine cs ss ≠ [] → ∃ r ∈ combine cs ss, r.subscribersRank = 1) ∧
    (∀ r ∈ combine cs ss, 2 ≤ r.subscribersRank →
      ∃ u ∈ combine cs ss, u.subscribersRank + 1 = r.subscribersRank)) ∧
    ((∀ r1 ∈ combine cs ss, ∀ r2 ∈ combine cs ss,
      (r1.score = r2.score → r1.scoreRank = r2.scoreRank) ∧
      (r2.score < r1.score → r1.scoreRank < r2.scoreRank)) ∧
    (∀ r ∈ combine cs ss,
      1 ≤ r.scoreRank ∧
        r.scoreRank ≤ ((combine cs ss).map (fun x => x.score)).dedup.length) ∧
    (combine cs ss ≠ [] → ∃ r ∈ combine cs ss, r.scoreRank = 1) ∧
    (∀ r ∈ combine cs ss, 2 ≤ r.scoreRank →
      ∃ u ∈ combine cs ss, u.scoreRank + 1 = r.scoreRank)) ∧
    ((∀ r1 ∈ combine cs ss, ∀ r2 ∈ combine cs ss,
      (r1.similarity = r2.similarity → r1.similarityRank = r2.similarityRank) ∧
      (r2.similarity < r1.similarity → r1.similarityRank < r2.similarityRank)) ∧
    (∀ r ∈ combine cs ss,
      1 ≤ r.similarityRank ∧
        r.similarityRank ≤ ((combine cs ss).map (fun x => x.similarity)).dedup.length) ∧
    (combine cs ss ≠ [] → ∃ r ∈ combine cs ss, r.similarityRank = 1) ∧
    (∀ r ∈ combine cs ss, 2 ≤ r.similarityRank →
      ∃ u ∈ combine cs ss, u.similarityRank + 1 = r.similarityRank)) ∧
    (denseRankDesc [(10 : ℚ), 10, 5] 10 = 1 ∧
      denseRankDesc [(10 : ℚ), 10, 5] 5 = 2) := by
  have hfields := combine_rank_fields cs ss
  have hvid := denseRank_column_spec (combine cs ss) (fun x => x.videos)
    (fun x => x.videosRank) (fun r hr => (hfields r hr).1)
  have hsub := denseRank_column_spec (combine cs ss) (fun x => x.subscribers)
    (fun x => x.subscribersRank) (fun r hr => (hfields r hr).2.1)
  have hsc := denseRank_column_spec (combine cs ss) (fun x => x.score)
    (fun x => x.scoreRank) (fun r hr => (hfields r hr).2.2.1)
  have hsi := denseRank_column_spec (combine cs ss) (fun x => x.similarity)
    (fun x => x.similarityRank) (fun r hr => (hfields r hr).2.2.2.1)
  exact ⟨combine_sorted cs ss, fun r hr => (hfields r hr).2.2.2.2,
    hvid, hsub, hsc, hsi, by decide, by decide⟩

/-- Witness for C1 at concrete two-row tables with distinct ids. -/
theorem combine_dense_ranking_witness :
    List.Pairwise (fun a b : RankedRow => a.averageRank ≤ b.averageRank)
      (combine
      [ChannelRow.mk "A" "tA" "uA" "dA" "100" "1000" 80,
        ChannelRow.mk "B" "tB" "uB" "dB" "50" "2000" 60]
      [SentimentRow.mk "A" (4 / 5), SentimentRow.mk "B" (1 / 5)]) ∧
    (∀ r ∈ combine
      [ChannelRow.mk "A" "tA" "uA" "dA" "100" "1000" 80,
        ChannelRow.mk "B" "tB" "uB" "dB" "50" "2000" 60]
      [SentimentRow.mk "A" (4 / 5), SentimentRow.mk "B" (1 / 5)],
      r.averageRank = ((r.videosRank : ℚ) + (r.subscribersRank : ℚ) +
        (r.scoreRank : ℚ) + (r.similarityRank : ℚ)) / 4) ∧
    ((∀ r1 ∈ combine
      [ChannelRow.mk "A" "tA" "uA" "dA" "100" "1000" 80,
        ChannelRow.mk "B" "tB" "uB" "dB" "50" "2000" 60]
      [SentimentRow.mk "A" (4 / 5), SentimentRow.mk "B" (1 / 5)], ∀ r2 ∈ combine
      [ChannelRow.mk "A" "tA" "uA" "dA" "100" "1000" 80,
        ChannelRow.mk "B" "tB" "uB" "dB" "50" "2000" 60]
      [SentimentRow.mk "A" (4 / 5), SentimentRow.mk "B" (1 / 5)],
      (r1.videos = r2.videos → r1.videosRank = r2.videosRank) ∧
      (r2.videos < r1.videos → r1.videosRank < r2.videosRank)) ∧
    (∀ r ∈ combine
      [ChannelRow.mk "A" "tA" "uA" "dA" "100" "1000" 80,
        ChannelRow.mk "B" "tB" "uB" "dB" "50" "2000" 60]
      [SentimentRow.mk "A" (4 / 5), SentimentRow.mk "B" (1 / 5)],
      1 ≤ r.videosRank ∧
        r.videosRank ≤ ((combine
      [ChannelRow.mk "A" "tA" "uA" "dA" "100" "1000" 80,
        ChannelRow.mk "B" "tB" "uB" "dB" "50" "2000" 60]
      [SentimentRow.mk "A" (4 / 5), SentimentRow.mk "B" (1 / 5)]).map (fun x => x.videos)).dedup.length) ∧
    (combine
      [ChannelRow.mk "A" "tA" "uA" "dA" "100" "1000" 80,
        ChannelRow.mk "B" "tB" "uB" "dB" "50" "2000" 60]
      [SentimentRow.mk "A" (4 / 5), SentimentRow.mk "B" (1 / 5)] ≠ [] → ∃ r ∈ combine
      [ChannelRow.mk "A" "tA" "uA" "dA" "100" "1000" 80,
        ChannelRow.mk "B" "tB" "uB" "dB" "50" "2000" 60]
      [SentimentRow.mk "A" (4 / 5), SentimentRow.mk "B" (1 / 5)], r.videosRank = 1) ∧
    (∀ r ∈ combine
      [ChannelRow.mk "A" "tA" "uA" "dA" "100" "1000" 80,
        ChannelRow.mk "B" "tB" "uB" "dB" "50" "2000" 60]
      [SentimentRow.mk "A" (4 / 5), SentimentRow.mk "B" (1 / 5)], 2 ≤ r.videosRank →
      ∃ u ∈ combine
      [ChannelRow.mk "A" "tA" "uA" "dA" "100" "1000" 80,
        ChannelRow.mk "B" "tB" "uB" "dB" "50" "2000" 60]
      [SentimentRow.mk "A" (4 / 5), SentimentRow.mk "B" (1 / 5)], u.videosRank + 1 = r.videosRank)) ∧
    ((∀ r1 ∈ combine
      [ChannelRow.mk "A" "tA" "uA" "dA" "100" "1000" 80,
        ChannelRow.mk "B" "tB" "uB" "dB" "50" "2000" 60]
      [SentimentRow.mk "A" (4 / 5), SentimentRow.mk "B" (1 / 5)], ∀ r2 ∈ combine
      [ChannelRow.mk "A" "tA" "uA" "dA" "100" "1000" 80,
        ChannelRow.mk "B" "tB" "uB" "dB" "50" "2000" 60]
      [SentimentRow.mk "A" (4 / 5), SentimentRow.mk "B" (1 / 5)],
      (r1.subscribers = r2.subscribers → r1.subscribersRank = r2.subscribersRank) ∧
      (r2.subscribers < r1.subscribers → r1.subscribersRank < r2.subscribersRank)) ∧
    (∀ r ∈ combine
      [ChannelRow.mk "A" "tA" "uA" "dA" "100" "1000" 80,
        ChannelRow.mk "B" "tB" "uB" "dB" "50" "2000" 60]
      [SentimentRow.mk "A" (4 / 5), SentimentRow.mk "B" (1 / 5)],
      1 ≤ r.subscribersRank ∧
        r.subscribersRank ≤ ((combine
      [ChannelRow.mk "A" "tA" "uA" "dA" "100" "1000" 80,
        ChannelRow.mk "B" "tB" "uB" "dB" "50" "2000" 60]
      [SentimentRow.mk "A" (4 / 5), SentimentRow.mk "B" (1 / 5)]).map (fun x => x.subscribers)).dedup.length) ∧
    (combine
      [ChannelRow.mk "A" "tA" "uA" "dA" "100" "1000" 80,
        ChannelRow.mk "B" "tB" "uB" "dB" "50" "2000" 60]
      [SentimentRow.mk "A" (4 / 5), SentimentRow.mk "B" (1 / 5)] ≠ [] → ∃ r ∈ combine
      [ChannelRow.mk "A" "tA" "uA" "dA" "100" "1000" 80,
        ChannelRow.mk "B" "tB" "uB" "dB" "50" "2000" 60]
      [SentimentRow.mk "A" (4 / 5), SentimentRow.mk "B" (1 / 5)], r.subscribersRank = 1) ∧
    (∀ r ∈ combine
      [ChannelRow.mk "A" "tA" "uA" "dA" "100" "1000" 80,
        ChannelRow.mk "B" "tB" "uB" "dB" "50" "2000" 60]
      [SentimentRow.mk "A" (4 / 5), SentimentRow.mk "B" (1 / 5)], 2 ≤ r.subscribersRank →
      ∃ u ∈ combine
      [ChannelRow.mk "A" "tA" "uA" "dA" "100" "1000" 80,
        ChannelRow.mk "B" "tB" "uB" "dB" "50" "2000" 60]
      [SentimentRow.mk "A" (4 / 5), SentimentRow.mk "B" (1 / 5)], u.subscribersRank + 1 = r.subscribersRank)) ∧
    ((∀ r1 ∈ combine
      [ChannelRow.mk "A" "tA" "uA" "dA" "100" "1000" 80,
        ChannelRow.mk "B" "tB" "uB" "dB" "50" "2000" 60]
      [SentimentRow.mk "A" (4 / 5), SentimentRow.mk "B" (1 / 5)], ∀ r2 ∈ combine
      [ChannelRow.mk "A" "tA" "uA" "dA" "100" "1000" 80,
        ChannelRow.mk "B" "tB" "uB" "dB" "50" "2000" 60]
      [SentimentRow.mk "A" (4 / 5), SentimentRow.mk "B" (1 / 5)],
      (r1.score = r2.score → r1.scoreRank = r2.scoreRank) ∧
      (r2.score < r1.score → r1.scoreRank < r2.scoreRank)) ∧
    (∀ r ∈ combine
      [ChannelRow.mk "A" "tA" "uA" "dA" "100" "1000" 80,
        ChannelRow.mk "B" "tB" "uB" "dB" "50" "2000" 60]
      [SentimentRow.mk "A" (4 / 5), SentimentRow.mk "B" (1 / 5)],
      1 ≤ r.scoreRank ∧
        r.scoreRank ≤ ((combine
      [ChannelRow.mk "A" "tA" "uA" "dA" "100" "1000" 80,
        ChannelRow.mk "B" "tB" "uB" "dB" "50" "2000" 60]
      [SentimentRow.mk "A" (4 / 5), SentimentRow.mk "B" (1 / 5)]).map (fun x => x.score)).dedup.length) ∧
    (combine
      [ChannelRow.mk "A" "tA" "uA" "dA" "100" "1000" 80,
        ChannelRow.mk "B" "tB" "uB" "dB" "50" "2000" 60]
      [SentimentRow.mk "A" (4 / 5), SentimentRow.mk "B" (1 / 5)] ≠ [] → ∃ r ∈ combine
      [ChannelRow.mk "A" "tA" "uA" "dA" "100" "1000" 80,
        ChannelRow.mk "B" "tB" "uB" "dB" "50" "2000" 60]
      [SentimentRow.mk "A" (4 / 5), SentimentRow.mk "B" (1 / 5)], r.scoreRank = 1) ∧
    (∀ r ∈ combine
      [ChannelRow.mk "A" "tA" "uA" "dA" "100" "1000" 80,
        ChannelRow.mk "B" "tB" "uB" "dB" "50" "2000" 60]
      [SentimentRow.mk "A" (4 / 5), SentimentRow.mk "B" (1 / 5)], 2 ≤ r.scoreRank →
      ∃ u ∈ combine
      [ChannelRow.mk "A" "tA" "uA" "dA" "100" "1000" 80,
        ChannelRow.mk "B" "tB" "uB" "dB" "50" "2000" 60]
      [SentimentRow.mk "A" (4 / 5), SentimentRow.mk "B" (1 / 5)], u.scoreRank + 1 = r.scoreRank)) ∧
    ((∀ r1 ∈ combine
      [ChannelRow.mk "A" "tA" "uA" "dA" "100" "1000" 80,
        ChannelRow.mk "B" "tB" "uB" "dB" "50" "2000" 60]
      [SentimentRow.mk "A" (4 / 5), SentimentRow.mk "B" (1 / 5)], ∀ r2 ∈ combine
      [ChannelRow.mk "A" "tA" "uA" "dA" "100" "1000" 80,
        ChannelRow.mk "B" "tB" "uB" "dB" "50" "2000" 60]
      [SentimentRow.mk "A" (4 / 5), SentimentRow.mk "B" (1 / 5)],
      (r1.similarity = r2.similarity → r1.similarityRank = r2.similarityRank) ∧
      (r2.similarity < r1.similarity → r1.similarityRank < r2.similarityRank)) ∧
    (∀ r ∈ combine
      [ChannelRow.mk "A" "tA" "uA" "dA" "100" "1000" 80,
        ChannelRow.mk "B" "tB" "uB" "dB" "50" "2000" 60]
      [SentimentRow.mk "A" (4 / 5), SentimentRow.mk "B" (1 / 5)],
      1 ≤ r.similarityRank ∧
        r.similarityRank ≤ ((combine
      [ChannelRow.mk "A" "tA" "uA" "dA" "100" "1000" 80,
        ChannelRow.mk "B" "tB" "uB" "dB" "50" "2000" 60]
      [SentimentRow.mk "A" (4 / 5), SentimentRow.mk "B" (1 / 5)]).map (fun x => x.similarity)).dedup.length) ∧
    (combine
      [ChannelRow.mk "A" "tA" "uA" "dA" "100" "1000" 80,
        ChannelRow.mk "B" "tB" "uB" "dB" "50" "2000" 60]
      [SentimentRow.mk "A" (4 / 5), SentimentRow.mk "B" (1 / 5)] ≠ [] → ∃ r ∈ combine
      [ChannelRow.mk "A" "tA" "uA" "dA" "100" "1000" 80,
        ChannelRow.mk "B" "tB" "uB" "dB" "50" "2000" 60]
      [SentimentRow.mk "A" (4 / 5), SentimentRow.mk "B" (1 / 5)], r.similarityRank = 1) ∧
    (∀ r ∈ combine
      [ChannelRow.mk "A" "tA" "uA" "dA" "100" "1000" 80,
        ChannelRow.mk "B" "tB" "uB" "dB" "50" "2000" 60]
      [SentimentRow.mk "A" (4 / 5), SentimentRow.mk "B" (1 / 5)], 2 ≤ r.similarityRank →
      ∃ u ∈ combine
      [ChannelRow.mk "A" "tA" "uA" "dA" "100" "1000" 80,
        ChannelRow.mk "B" "tB" "uB" "dB" "50" "2000" 60]
      [SentimentRow.mk "A" (4 / 5), SentimentRow.mk "B" (1 / 5)], u.similarityRank + 1 = r.similarityRank)) ∧
    (denseRankDesc [(10 : ℚ), 10, 5] 10 = 1 ∧
      denseRankDesc [(10 : ℚ), 10, 5] 5 = 2) :=
  combine_dense_ranking
    [ChannelRow.mk "A" "tA" "uA" "dA" "100" "1000" 80,
        ChannelRow.mk "B" "tB" "uB" "dB" "50" "2000" 60]
    [SentimentRow.mk "A" (4 / 5), SentimentRow.mk "B" (1 / 5)]
    (by decide) (by decide)
